import Mathlib

/-!
Verification development for the directive-processing core of pytest-sphinx,
as implemented in `src/docutils_doctest.py`.

The shallow embedding below translates `TestDirective.run` (lines 44-128) and
its two module-level regular expressions (lines 20-21) into executable Lean
definitions.  Python strings are modelled as `String` (manipulated through
their `List Char` data to keep every definition kernel-reducible), Python's
insertion-ordered `dict` for the doctest option flags is modelled as an
association list with update-in-place semantics, and the docutils `reporter`
warnings are collected into an explicit list.

Three names are referenced by `src/docutils_doctest.py` without being defined
or imported anywhere in `src/`: the message wrapper `__` (sphinx.locale's
gettext marker in the sphinx heritage of this file), `is_allowed_version` and
`InvalidSpecifier` (packaging/sphinx.ext.doctest).  `__` is modelled as the
identity on message data (each warning constructor simply carries the
offending string), and the version check is modelled as an abstract parameter
of `run` returning match / no-match / invalid-specifier.

The Section Assembler (pytest_sphinx's `docstring2examples` pipeline) is not
under `src/`; it is modelled from the specification where needed, and every
such definition is marked `Modelled from the spec:` in its doc comment.
-/

/-- The set of characters Python's `str.split()` (and `\s` in the two regular
expressions, restricted to ASCII) treats as whitespace. -/
def isPyWs (c : Char) : Bool :=
  c = ' ' ∨ c = '\t' ∨ c = '\n' ∨ c = '\r' ∨ c = '\x0b' ∨ c = '\x0c'

/-- Substring test on character lists: `pat` occurs somewhere in the text.
Models Python's `pat in s`. -/
def hasSubstrL (pat : List Char) : List Char → Bool
  | [] => pat.isEmpty
  | c :: cs => pat.isPrefixOf (c :: cs) || hasSubstrL pat cs

/-- Models Python's `"<BLANKLINE>" in code` (line 52 of the source). -/
def hasBlanklineTok (s : String) : Bool :=
  hasSubstrL "<BLANKLINE>".data s.data

/-- Models `s.replace(",", " ")` for the one-character pattern used at line 94
of the source. -/
def replaceCommas : List Char → List Char
  | [] => []
  | c :: cs => (if c = ',' then ' ' else c) :: replaceCommas cs

/-- Accumulator-based splitting of a character list into maximal runs of
non-whitespace characters; models Python's `str.split()` with no argument
(used at line 94 of the source).  `acc` holds the current token reversed. -/
def wsSplitAux (acc : List Char) : List Char → List (List Char)
  | [] => if acc = [] then [] else [acc.reverse]
  | c :: cs =>
    if isPyWs c then
      if acc = [] then wsSplitAux [] cs else acc.reverse :: wsSplitAux [] cs
    else wsSplitAux (c :: acc) cs

/-- The token list produced at line 94 of the source:
`self.options["options"].replace(",", " ").split()`. -/
def pyTokens (s : String) : List String :=
  (wsSplitAux [] (replaceCommas s.data)).map String.mk

/-- Python's `doctest.OPTIONFLAGS_BY_NAME`: the registry of comparison and
reporting flags, with the power-of-two values the `doctest` module registers
them with. -/
def OPTIONFLAGS_BY_NAME : List (String × Nat) :=
  [("DONT_ACCEPT_TRUE_FOR_1", 1), ("DONT_ACCEPT_BLANKLINE", 2),
   ("NORMALIZE_WHITESPACE", 4), ("ELLIPSIS", 8), ("SKIP", 16),
   ("IGNORE_EXCEPTION_DETAIL", 32), ("REPORT_UDIFF", 64),
   ("REPORT_CDIFF", 128), ("REPORT_NDIFF", 256),
   ("REPORT_ONLY_FIRST_FAILURE", 512), ("FAIL_FAST", 1024)]

/-- Lookup in `doctest.OPTIONFLAGS_BY_NAME`; `none` models `KeyError` /
a failed `in` test. -/
def optionflagsByName (n : String) : Option Nat :=
  (OPTIONFLAGS_BY_NAME.find? (fun p => p.1 == n)).map (fun p => p.2)

/-- A diagnostic emitted through `self.state.document.reporter.warning`.
Each constructor carries the data interpolated into the message at
lines 98-101, 103-108 and 118-121 of the source, plus the directive line. -/
inductive Warning where
  | missingSign (tok : String) (line : Nat)
  | invalidOption (nm : String) (line : Nat)
  | invalidPyversion (spec : String) (line : Nat)
deriving DecidableEq

/-- Python-dict insertion: update the value in place when the key is present,
append otherwise (models `node["options"][flag] = ...`). -/
def dictInsert (m : List (Nat × Bool)) (k : Nat) (v : Bool) : List (Nat × Bool) :=
  match m with
  | [] => [(k, v)]
  | (k', v') :: rest => if k' = k then (k, v) :: rest else (k', v') :: dictInsert rest k v

/-- Python-dict lookup. -/
def dictGet (m : List (Nat × Bool)) (k : Nat) : Option Bool :=
  match m with
  | [] => none
  | (k', v) :: rest => if k' = k then some v else dictGet rest k

/-- One iteration of the option-token loop at lines 95-110 of the source:
`prefix, option_name = option[0], option[1:]`, the sign test, the registry
test, and the dict assignment.  The state is the options dict paired with the
warnings emitted so far.  (The empty-token case is unreachable for tokens
coming from `pyTokens`, whose tokens are nonempty; it is mapped to the
missing-sign branch.) -/
def parseOptionToken (ln : Nat) (st : List (Nat × Bool) × List Warning)
    (tok : String) : List (Nat × Bool) × List Warning :=
  match tok.data with
  | [] => (st.1, st.2 ++ [Warning.missingSign tok ln])
  | sign :: rest =>
    if sign ≠ '+' ∧ sign ≠ '-' then
      (st.1, st.2 ++ [Warning.missingSign tok ln])
    else
      match optionflagsByName (String.mk rest) with
      | none => (st.1, st.2 ++ [Warning.invalidOption (String.mk rest) ln])
      | some f => (dictInsert st.1 f (sign == '+'), st.2)

/-- Lines 94-110 of the source: tokenize the `:options:` string and fold the
token loop over it. -/
def parseOptionStrings (s : String) (ln : Nat) : List (Nat × Bool) × List Warning :=
  (pyTokens s).foldl (parseOptionToken ln) ([], [])

/-- The map component of one loop iteration, considered alone (the loop never
lets the warning list influence the dict). -/
def optMapStep (m : List (Nat × Bool)) (tok : String) : List (Nat × Bool) :=
  match tok.data with
  | [] => m
  | sign :: rest =>
    if sign ≠ '+' ∧ sign ≠ '-' then m
    else
      match optionflagsByName (String.mk rest) with
      | none => m
      | some f => dictInsert m f (sign == '+')

/-- The warning (if any) one token contributes. -/
def malformedWarning (ln : Nat) (tok : String) : Option Warning :=
  match tok.data with
  | [] => some (Warning.missingSign tok ln)
  | sign :: rest =>
    if sign ≠ '+' ∧ sign ≠ '-' then some (Warning.missingSign tok ln)
    else
      match optionflagsByName (String.mk rest) with
      | none => some (Warning.invalidOption (String.mk rest) ln)
      | some _ => none

/-- Following the specification's words (§4.1): a well-formed token begins
with `+` or `-` followed by a flag name drawn from the registry; it binds the
flag to `true` exactly when the sign is `+`. -/
def tokenFlagSpec (tok : String) : Option (Nat × Bool) :=
  match tok.data with
  | [] => none
  | sign :: rest =>
    if sign = '+' ∨ sign = '-' then
      (optionflagsByName (String.mk rest)).map (fun f => (f, sign == '+'))
    else none

/-- One attempt of the regular expression `blankline_re = ^\s*<BLANKLINE>`
(line 20 of the source, MULTILINE) at a position where `^` holds.  Because the
literal `<` is not whitespace, greedy `\s*` with backtracking matches exactly
the maximal whitespace run; on success the remainder of the text after the
match is returned. -/
def matchBlank (cs : List Char) : Option (List Char) :=
  let r := cs.dropWhile isPyWs
  if "<BLANKLINE>".data.isPrefixOf r then some (r.drop 11) else none

/-- The left-to-right non-overlapping scan of `blankline_re.sub("", code)`
(line 55 of the source).  `atStart` records whether the current position is a
line start (string start or just after a newline), i.e. whether `^` holds in
MULTILINE mode.  The `Nat` argument is fuel; with fuel at least the length of
the text it is never exhausted (each match consumes at least one character),
so the top-level wrapper below passes the length. -/
def blAux : Nat → Bool → List Char → List Char
  | _, _, [] => []
  | 0, _, cs => cs
  | n + 1, atStart, c :: cs =>
    match (if atStart then matchBlank (c :: cs) else none) with
    | some rest => blAux n false rest
    | none => c :: blAux n (c = '\n') cs

/-- `blankline_re.sub("", s)`: remove every line-leading
(optionally whitespace-preceded) `<BLANKLINE>` marker. -/
def pyBlanklineSub (s : String) : String :=
  String.mk (blAux s.data.length true s.data)

/-- Whether `blankline_re` matches anywhere in the text scanned the same way
`blAux` scans it. -/
def blHas : Bool → List Char → Bool
  | _, [] => false
  | atStart, c :: cs => (atStart && (matchBlank (c :: cs)).isSome) || blHas (c = '\n') cs

/-- `blankline_re.search(s) is not None`. -/
def pyBlanklineSearch (s : String) : Bool := blHas true s.data

/-- One attempt of `doctestopt_re = #\s*doctest:.+$` (line 21 of the source,
MULTILINE) at the current position.  After the literal `#`, greedy `\s*` (which
may cross newlines) must be followed by the literal `doctest:`; `.+$` then
requires at least one non-newline character and consumes the rest of the line.
On success the remainder after the match (from the next newline, or nothing)
is returned. -/
def matchFlag : List Char → Option (List Char)
  | [] => none
  | c :: rest =>
    if c = '#' then
      let r := rest.dropWhile isPyWs
      if "doctest:".data.isPrefixOf r then
        match r.drop 8 with
        | [] => none
        | d :: ds => if d = '\n' then none else some ((d :: ds).dropWhile (fun e => ¬ e = '\n'))
      else none
    else none

/-- The left-to-right non-overlapping scan of `doctestopt_re.sub("", code)`
(line 62 of the source).  Fuel as in `blAux`. -/
def flAux : Nat → List Char → List Char
  | _, [] => []
  | 0, cs => cs
  | n + 1, c :: cs =>
    match matchFlag (c :: cs) with
    | some rest => flAux n rest
    | none => c :: flAux n cs

/-- `doctestopt_re.sub("", s)`: strip every inline `# doctest: ...`
flag-comment annotation. -/
def pyFlagSub (s : String) : String :=
  String.mk (flAux s.data.length s.data)

/-- Whether `doctestopt_re` matches anywhere in the text. -/
def flHas : List Char → Bool
  | [] => false
  | c :: cs => (matchFlag (c :: cs)).isSome || flHas cs

/-- `doctestopt_re.search(s) is not None` (line 57 of the source). -/
def pyFlagSearch (s : String) : Bool := flHas s.data

/-- `"\n".join(self.content)` (line 47 of the source), at character level. -/
def joinLinesL : List String → List Char
  | [] => []
  | [s] => s.data
  | s :: rest => s.data ++ '\n' :: joinLinesL rest

/-- The directive body text assembled from the content lines. -/
def joinContent (content : List String) : String :=
  String.mk (joinLinesL content)

/-- `arg.split(",")` for the group argument (line 67 of the source): split at
every comma, keeping empty pieces, exactly like Python's `str.split(",")`. -/
def splitCommaAux (acc : List Char) : List Char → List (List Char)
  | [] => [acc.reverse]
  | c :: cs => if c = ',' then acc.reverse :: splitCommaAux [] cs else splitCommaAux (c :: acc) cs

/-- Python's `str.strip()`: drop whitespace from both ends. -/
def pyStrip (s : List Char) : List Char :=
  ((s.dropWhile isPyWs).reverse.dropWhile isPyWs).reverse

/-- Lines 66-69 of the source: the groups list is the comma-split, stripped
argument when one is given, `["default"]` otherwise. -/
def computeGroups : List String → List String
  | [] => ["default"]
  | a :: _ => (splitCommaAux [] a.data).map (fun l => String.mk (pyStrip l))

/-- Presence test on the directive's own option dict `self.options`
(modelled as an association list in declaration order). -/
def optHas (opts : List (String × String)) (k : String) : Bool :=
  opts.any (fun p => p.1 == k)

/-- Value lookup in the directive's own option dict. -/
def optGet (opts : List (String × String)) (k : String) : Option String :=
  (opts.find? (fun p => p.1 == k)).map (fun p => p.2)

/-- Lines 51-62 of the source, the `self.name == "doctest"` body: the
blank-line substitution (keeping the pre-substitution text in `test`) followed
by the conditional flag-comment stripping.  Returns the working `code` text
paired with the optional preserved `test` text. -/
def doctestTransform (opts : List (String × String)) (code0 : String) :
    String × Option String :=
  let p1 : String × Option String :=
    if hasBlanklineTok code0 then (pyBlanklineSub code0, some code0) else (code0, none)
  if pyFlagSearch p1.1 && !optHas opts "no-trim-doctest-flags" then
    (pyFlagSub p1.1, some (p1.2.getD p1.1))
  else p1

/-- Lines 91-110 of the source: `node["options"] = {}`, then, for `doctest`
and `testoutput` directives carrying an `:options:` string, the token loop. -/
def parseDirectiveOptions (name : String) (opts : List (String × String))
    (ln : Nat) : List (Nat × Bool) × List Warning :=
  if (name = "doctest" ∨ name = "testoutput") ∧ optHas opts "options" = true then
    parseOptionStrings ((optGet opts "options").getD "") ln
  else ([], [])

/-- Result of evaluating `is_allowed_version(spec, python_version)`:
the specifier matches, does not match, or raises `InvalidSpecifier`.
Modelled from the spec: `is_allowed_version` and `InvalidSpecifier` are
referenced at lines 115 and 118 of `src/docutils_doctest.py` but never
defined or imported in `src/`; per §4.1 the version specifier is "a
comparison expression against the running interpreter's three-part version
tuple", so the check is supplied to `run` as an abstract parameter. -/
inductive VersionCheck where
  | isMatch
  | noMatch
  | invalid
deriving DecidableEq

/-- Lines 111-121 of the source: for a `doctest` directive carrying
`pyversion`, a non-matching specifier forces the SKIP flag into the options
dict; an invalid specifier is reported as a warning. -/
def applyPyversion (vc : String → VersionCheck) (name : String)
    (opts : List (String × String)) (ln : Nat)
    (st : List (Nat × Bool) × List Warning) : List (Nat × Bool) × List Warning :=
  if name = "doctest" ∧ optHas opts "pyversion" = true then
    let spec := (optGet opts "pyversion").getD ""
    match vc spec with
    | VersionCheck.noMatch => (dictInsert st.1 ((optionflagsByName "SKIP").getD 0) true, st.2)
    | VersionCheck.isMatch => st
    | VersionCheck.invalid => (st.1, st.2 ++ [Warning.invalidPyversion spec ln])
  else st

/-- The docutils node produced by `TestDirective.run`, with the attributes the
source sets on it. -/
structure TestNode where
  code : String
  testnodetype : String
  groups : List String
  sourceLine : Nat
  test : Option String
  language : Option String
  nodetype : String
  options : List (Nat × Bool)
  skipif : Option String
  trim_flags : Option Bool
deriving DecidableEq

/-- The inputs docutils hands a directive: its registered name, the argument
list, the option dict in declaration order, the content lines, and the line
number used for source info and warnings. -/
structure DirectiveInput where
  name : String
  arguments : List String
  options : List (String × String)
  content : List String
  lineno : Nat

/-- `TestDirective.run` (lines 44-128 of the source), as a pure function from
the directive inputs (plus the abstract version check) to the produced node
and the warnings reported along the way.  The debug `print` at line 50 has no
observable effect on the result and is not modelled. -/
def run (vc : String → VersionCheck) (inp : DirectiveInput) : TestNode × List Warning :=
  let code0 := joinContent inp.content
  let ct : String × Option String :=
    if inp.name = "doctest" then doctestTransform inp.options code0 else (code0, none)
  let nodetype : String :=
    if inp.name = "testsetup" ∨ inp.name = "testcleanup" ∨ optHas inp.options "hide" = true
    then "comment" else "literal_block"
  let groups := computeGroups inp.arguments
  let language : Option String :=
    if inp.name = "doctest" then some "pycon3"
    else if inp.name = "testcode" then some "python3"
    else if inp.name = "testoutput" then some "none"
    else none
  let st0 := parseDirectiveOptions inp.name inp.options inp.lineno
  let st1 := applyPyversion vc inp.name inp.options inp.lineno st0
  let skipif := optGet inp.options "skipif"
  let trimFlags : Option Bool :=
    if optHas inp.options "trim-doctest-flags" = true then some true
    else if optHas inp.options "no-trim-doctest-flags" = true then some false
    else none
  ({ code := ct.1, testnodetype := inp.name, groups := groups,
     sourceLine := inp.lineno, test := ct.2, language := language,
     nodetype := nodetype, options := st1.1, skipif := skipif,
     trim_flags := trimFlags }, st1.2)

/-- A version check that always reports a match (used to instantiate `run` at
concrete inputs that carry no `pyversion` option). -/
def vcAny : String → VersionCheck := fun _ => VersionCheck.isMatch

/-- A version check that always reports a non-match. -/
def vcNone : String → VersionCheck := fun _ => VersionCheck.noMatch

/-- The binding the last well-formed token naming flag `f` in the token list
establishes, if any (later tokens win). -/
def lastBind (f : Nat) : List String → Option Bool
  | [] => none
  | t :: ts =>
    match lastBind f ts with
    | some b => some b
    | none =>
      match tokenFlagSpec t with
      | some (g, b) => if g = f then some b else none
      | none => none

/-- The five directive kinds recognized by the scanner (§3 of the spec). -/
inductive BlockKind where
  | testsetup
  | testcleanup
  | testcode
  | doctest
  | testoutput
deriving DecidableEq

/-- Modelled from the spec: a `DirectiveBlock` (§3) as consumed by the
Section Assembler, which is part of this repository's pytest_sphinx pipeline
but is not under `src/` — only its tests are.  It carries the directive kind,
the groups it belongs to, the dedented body, and the 1-based source line. -/
structure SBlock where
  kind : BlockKind
  groups : List String
  body : String
  line : Nat
deriving DecidableEq

/-- Modelled from the spec: an assembled Example (§3): the contributing
code-bearing block plus the ordered list of candidate output blocks attached
to it (§4.3 keeps all alternatives, deferring selection to execution). -/
structure SExample where
  codeBlock : SBlock
  outputs : List SBlock
deriving DecidableEq

/-- Modelled from the spec: the orphaned-output structural error (§7), which
must name the offending group and line. -/
structure OrphanErr where
  group : String
  line : Nat
deriving DecidableEq

/-- Flush the one-slot pending example, if any, as an Example. -/
def flushPending : Option SExample → List SExample
  | none => []
  | some p => [p]

def assembleAux (g : String) : Option SExample → List SBlock → Except OrphanErr (List SExample)
  | pend, [] => Except.ok (flushPending pend)
  | pend, b :: bs =>
    match b.kind with
    | BlockKind.testcode =>
      match assembleAux g (some ⟨b, []⟩) bs with
      | Except.ok es => Except.ok (flushPending pend ++ es)
      | Except.error e => Except.error e
    | BlockKind.doctest =>
      match assembleAux g (some ⟨b, []⟩) bs with
      | Except.ok es => Except.ok (flushPending pend ++ es)
      | Except.error e => Except.error e
    | BlockKind.testoutput =>
      match pend with
      | some p => assembleAux g (some ⟨p.codeBlock, p.outputs ++ [b]⟩) bs
      | none => Except.error ⟨g, b.line⟩
    | BlockKind.testsetup =>
      match assembleAux g pend bs with
      | Except.ok es => Except.ok (⟨b, []⟩ :: es)
      | Except.error e => Except.error e
    | BlockKind.testcleanup =>
      match assembleAux g pend bs with
      | Except.ok es => Except.ok (⟨b, []⟩ :: es)
      | Except.error e => Except.error e

/-- Modelled from the spec (§4.3): blocks interleaved in the source are
demultiplexed by group membership, and each group is assembled
independently. -/
def assembleGroup (g : String) (bs : List SBlock) : Except OrphanErr (List SExample) :=
  assembleAux g none (bs.filter (fun b => b.groups.contains g))

/-- The first orphaned output of a block sequence: the first `testoutput`
block that is not preceded by any `testcode`/`doctest` block (after the first
code-bearing block the pending slot is never again empty, so only such a
block can be orphaned). -/
def firstOrphan : List SBlock → Option SBlock
  | [] => none
  | b :: bs =>
    match b.kind with
    | BlockKind.testoutput => some b
    | BlockKind.testcode => none
    | BlockKind.doctest => none
    | BlockKind.testsetup => firstOrphan bs
    | BlockKind.testcleanup => firstOrphan bs

/-- A concrete `testoutput` directive input carrying
`:options: +NORMALIZE_WHITESPACE, +ELLIPSIS`. -/
def c1Inp : DirectiveInput :=
  { name := "testoutput", arguments := [],
    options := [("options", "+NORMALIZE_WHITESPACE, +ELLIPSIS")],
    content := [], lineno := 0 }

/-- A concrete orphaned `testoutput` block in group `default`. -/
def c3Blk : SBlock :=
  { kind := BlockKind.testoutput, groups := ["default"], body := "out", line := 5 }

/-- A `testoutput` directive whose body contains the `<BLANKLINE>` marker. -/
def c4Inp : DirectiveInput :=
  { name := "testoutput", arguments := [], options := [],
    content := ["<BLANKLINE>"], lineno := 1 }

/-- A concrete `doctest` directive whose body contains the marker. -/
def c4wInp : DirectiveInput :=
  { name := "doctest", arguments := [], options := [],
    content := [">>> print()", "<BLANKLINE>"], lineno := 1 }

/-- A `testcode` directive whose body carries an inline flag annotation. -/
def c5Inp : DirectiveInput :=
  { name := "testcode", arguments := [], options := [],
    content := ["print(1)  # doctest: +ELLIPSIS"], lineno := 1 }

/-- A concrete `doctest` directive with an inline flag annotation and no
`no-trim-doctest-flags` option. -/
def c5wInp : DirectiveInput :=
  { name := "doctest", arguments := [], options := [],
    content := [">>> 1  # doctest: +SKIP", "1"], lineno := 1 }

/-- A `testoutput` directive carrying a `pyversion` option. -/
def c6Inp : DirectiveInput :=
  { name := "testoutput", arguments := [], options := [("pyversion", "3.99")],
    content := [], lineno := 1 }

/-- A concrete `doctest` directive carrying a non-matching `pyversion`
option. -/
def c6wInp : DirectiveInput :=
  { name := "doctest", arguments := [], options := [("pyversion", "3.99")],
    content := [], lineno := 1 }

/-- A `testcode` directive declaring `trim-doctest-flags` first and
`no-trim-doctest-flags` last. -/
def c7Inp : DirectiveInput :=
  { name := "testcode", arguments := [],
    options := [("trim-doctest-flags", ""), ("no-trim-doctest-flags", "")],
    content := ["pass"], lineno := 3 }

/-- A `testcode` directive with a two-name comma-separated group argument
containing surrounding whitespace and interior spaces. -/
def c8Inp : DirectiveInput :=
  { name := "testcode", arguments := ["g one ,g two"], options := [],
    content := [], lineno := 0 }

/-- The presentation-to-execution normalization in the order the spec and the
source apply it (lines 52-62): blank-line substitution followed by
flag-comment stripping. -/
def normText (s : String) : String := pyFlagSub (pyBlanklineSub s)

example : pyBlanklineSub "a\n<BLANKLINE>\nb" = "a\n\nb" := by decide

example : pyBlanklineSub "<BLANKLINE> <BLANKLINE>" = " <BLANKLINE>" := by decide

example : pyBlanklineSub " <BLANKLINE>" = "" := by decide

example : pyFlagSub ">>> 1  # doctest: +SKIP\n1" = ">>> 1  \n1" := by decide

example : pyFlagSearch "x # doctest:" = false := by decide

example : pyFlagSub "#  #doctest:x\ndoctest:y" = "#  \ndoctest:y" := by decide

example : pyTokens "+NORMALIZE_WHITESPACE, +ELLIPSIS" =
    ["+NORMALIZE_WHITESPACE", "+ELLIPSIS"] := by decide

example :
    (run vcAny { name := "testoutput", arguments := [], options := [("options", "+NORMALIZE_WHITESPACE, +ELLIPSIS")], content := ["pprint.pprint(d)"], lineno := 5 }).1.options =
    [(4, true), (8, true)] := by decide

example :
    (run vcAny { name := "doctest", arguments := [], options := [], content := [">>> print()", "<BLANKLINE>"], lineno := 1 }).1.code =
    ">>> print()\n" := by decide

example :
    (run vcAny { name := "doctest", arguments := [], options := [], content := [">>> 1  # doctest: +SKIP", "1"], lineno := 1 }).1 =
    { code := ">>> 1  \n1", testnodetype := "doctest", groups := ["default"],
      sourceLine := 1, test := some ">>> 1  # doctest: +SKIP\n1",
      language := some "pycon3", nodetype := "literal_block", options := [],
      skipif := none, trim_flags := none } := by decide

theorem run_options (vc : String → VersionCheck) (inp : DirectiveInput) :
    (run vc inp).1.options =
      (applyPyversion vc inp.name inp.options inp.lineno
        (parseDirectiveOptions inp.name inp.options inp.lineno)).1 := rfl

theorem run_warnings (vc : String → VersionCheck) (inp : DirectiveInput) :
    (run vc inp).2 =
      (applyPyversion vc inp.name inp.options inp.lineno
        (parseDirectiveOptions inp.name inp.options inp.lineno)).2 := rfl

theorem run_code (vc : String → VersionCheck) (inp : DirectiveInput) :
    (run vc inp).1.code =
      (if inp.name = "doctest" then doctestTransform inp.options (joinContent inp.content)
       else (joinContent inp.content, none)).1 := rfl

theorem run_test (vc : String → VersionCheck) (inp : DirectiveInput) :
    (run vc inp).1.test =
      (if inp.name = "doctest" then doctestTransform inp.options (joinContent inp.content)
       else (joinContent inp.content, none)).2 := rfl

theorem run_groups (vc : String → VersionCheck) (inp : DirectiveInput) :
    (run vc inp).1.groups = computeGroups inp.arguments := rfl

theorem run_trim_flags (vc : String → VersionCheck) (inp : DirectiveInput) :
    (run vc inp).1.trim_flags =
      (if optHas inp.options "trim-doctest-flags" = true then some true
       else if optHas inp.options "no-trim-doctest-flags" = true then some false
       else none) := rfl

theorem optGet_some_optHas {opts : List (String × String)} {k v : String}
    (h : optGet opts k = some v) : optHas opts k = true := by
  induction opts with
  | nil => simp [optGet] at h
  | cons p rest ih =>
    cases hp : p.1 == k
    · simp only [optGet, List.find?_cons, hp] at h
      simp only [optHas, List.any_cons, hp, Bool.false_or]
      exact ih h
    · simp [optHas, hp]

theorem dictGet_dictInsert (m : List (Nat × Bool)) (k j : Nat) (v : Bool) :
    dictGet (dictInsert m k v) j = if k = j then some v else dictGet m j := by
  induction m with
  | nil =>
    by_cases h : k = j <;> simp [dictInsert, dictGet, h]
  | cons p rest ih =>
    by_cases h1 : p.1 = k
    · by_cases h2 : k = j
      · simp [dictInsert, dictGet, h1, h2]
      · have h3 : ¬ p.1 = j := by rw [h1]; exact h2
        simp [dictInsert, dictGet, h1, h2, h3]
    · by_cases h3 : p.1 = j
      · have h2 : ¬ k = j := by
          intro hkj
          exact h1 (by rw [hkj, h3])
        have h2' : ¬ j = k := fun hh => h2 (Eq.symm hh)
        simp [dictInsert, dictGet, h1, h2, h2', h3]
      · simp [dictInsert, dictGet, h1, h3, ih]

theorem parseOptionToken_fst (ln : Nat) (st : List (Nat × Bool) × List Warning)
    (tok : String) : (parseOptionToken ln st tok).1 = optMapStep st.1 tok := by
  cases tok with
  | mk data =>
    cases data with
    | nil => rfl
    | cons sign rest =>
      simp only [parseOptionToken, optMapStep]
      by_cases h : sign ≠ '+' ∧ sign ≠ '-'
      · simp [h]
      · cases hreg : optionflagsByName (String.mk rest) <;> simp [h, hreg]

theorem parseOptionToken_snd (ln : Nat) (st : List (Nat × Bool) × List Warning)
    (tok : String) :
    (parseOptionToken ln st tok).2 = st.2 ++ (malformedWarning ln tok).toList := by
  cases tok with
  | mk data =>
    cases data with
    | nil => rfl
    | cons sign rest =>
      simp only [parseOptionToken, malformedWarning]
      by_cases h : sign ≠ '+' ∧ sign ≠ '-'
      · simp [h]
      · cases hreg : optionflagsByName (String.mk rest) <;> simp [h, hreg]

theorem foldl_parseOptionToken (ln : Nat) (ts : List String) :
    ∀ (m : List (Nat × Bool)) (w : List Warning),
      ts.foldl (parseOptionToken ln) (m, w) =
        (ts.foldl optMapStep m, w ++ ts.filterMap (malformedWarning ln)) := by
  induction ts with
  | nil => intro m w; simp
  | cons t ts ih =>
    intro m w
    have hstep : parseOptionToken ln (m, w) t =
        (optMapStep m t, w ++ (malformedWarning ln t).toList) := by
      have h1 := parseOptionToken_fst ln (m, w) t
      have h2 := parseOptionToken_snd ln (m, w) t
      exact Prod.ext h1 h2
    simp only [List.foldl_cons, hstep, ih]
    cases hmal : malformedWarning ln t <;>
      simp [List.filterMap_cons, hmal]

theorem optMapStep_of_spec_none {tok : String} (h : tokenFlagSpec tok = none)
    (m : List (Nat × Bool)) : optMapStep m tok = m := by
  cases tok with
  | mk data =>
    cases data with
    | nil => rfl
    | cons sign rest =>
      simp only [tokenFlagSpec] at h
      simp only [optMapStep]
      by_cases hs : sign = '+' ∨ sign = '-'
      · rw [if_pos hs] at h
        have hns : ¬ (sign ≠ '+' ∧ sign ≠ '-') := fun hc => (hs.elim hc.1 hc.2)
        cases hreg : optionflagsByName (String.mk rest)
        · simp [hns, hreg]
        · rw [hreg] at h
          simp at h
      · have hs' : sign ≠ '+' ∧ sign ≠ '-' := not_or.mp hs
        simp [hs']

theorem optMapStep_of_spec_some {tok : String} {f : Nat} {b : Bool}
    (h : tokenFlagSpec tok = some (f, b)) (m : List (Nat × Bool)) :
    optMapStep m tok = dictInsert m f b := by
  cases tok with
  | mk data =>
    cases data with
    | nil => simp [tokenFlagSpec] at h
    | cons sign rest =>
      simp only [tokenFlagSpec] at h
      simp only [optMapStep]
      by_cases hs : sign = '+' ∨ sign = '-'
      · rw [if_pos hs] at h
        have hns : ¬ (sign ≠ '+' ∧ sign ≠ '-') := fun hc => (hs.elim hc.1 hc.2)
        cases hreg : optionflagsByName (String.mk rest)
        · rw [hreg] at h; simp at h
        · rw [hreg] at h
          simp only [Option.map_some'] at h
          rw [Option.some.injEq, Prod.mk.injEq] at h
          rw [if_neg hns]
          simp [h.1, h.2]
      · rw [if_neg hs] at h
        simp at h

theorem blAux_of_no_match :
    ∀ (n : Nat) (b : Bool) (cs : List Char), cs.length ≤ n → blHas b cs = false →
      blAux n b cs = cs := by
  intro n
  induction n with
  | zero =>
    intro b cs hlen _
    cases cs with
    | nil => rfl
    | cons c cs => simp at hlen
  | succ n ih =>
    intro b cs hlen hno
    cases cs with
    | nil => rfl
    | cons c cs =>
      simp only [blHas, Bool.or_eq_false_iff, Bool.and_eq_false_iff] at hno
      have hrest : blHas (c = '\n') cs = false := hno.2
      have hlen' : cs.length ≤ n := Nat.le_of_succ_le_succ hlen
      cases b with
      | false =>
        simp only [blAux, if_neg (Bool.false_ne_true)]
        rw [ih (c = '\n') cs hlen' hrest]
      | true =>
        have hm : matchBlank (c :: cs) = none := by
          rcases hno.1 with h | h
          · simp at h
          · exact Option.not_isSome_iff_eq_none.mp (by rw [h]; exact Bool.false_ne_true)
        simp [blAux, hm, ih (c = '\n') cs hlen' hrest]

/-- If `blankline_re` has no match in `s`, the substitution returns `s`
unchanged. -/
theorem pyBlanklineSub_of_no_search {s : String} (h : pyBlanklineSearch s = false) :
    pyBlanklineSub s = s := by
  cases s with
  | mk data =>
    simp only [pyBlanklineSub]
    rw [blAux_of_no_match data.length true data (Nat.le_refl _) h]

theorem flAux_of_no_match :
    ∀ (n : Nat) (cs : List Char), cs.length ≤ n → flHas cs = false →
      flAux n cs = cs := by
  intro n
  induction n with
  | zero =>
    intro cs hlen _
    cases cs with
    | nil => rfl
    | cons c cs => simp at hlen
  | succ n ih =>
    intro cs hlen hno
    cases cs with
    | nil => rfl
    | cons c cs =>
      simp only [flHas, Bool.or_eq_false_iff] at hno
      have hm : matchFlag (c :: cs) = none :=
        Option.not_isSome_iff_eq_none.mp (by rw [hno.1]; exact Bool.false_ne_true)
      simp only [flAux, hm]
      rw [ih cs (Nat.le_of_succ_le_succ hlen) hno.2]

/-- If `doctestopt_re` has no match in `s`, the substitution returns `s`
unchanged. -/
theorem pyFlagSub_of_no_search {s : String} (h : pyFlagSearch s = false) :
    pyFlagSub s = s := by
  cases s with
  | mk data =>
    simp only [pyFlagSub]
    rw [flAux_of_no_match data.length data (Nat.le_refl _) h]

theorem dictGet_foldl_optMapStep (f : Nat) :
    ∀ (ts : List String) (m : List (Nat × Bool)),
      dictGet (ts.foldl optMapStep m) f =
        match lastBind f ts with
        | some b => some b
        | none => dictGet m f := by
  intro ts
  induction ts with
  | nil => intro m; rfl
  | cons t ts ih =>
    intro m
    simp only [List.foldl_cons, lastBind]
    rw [ih (optMapStep m t)]
    cases hlb : lastBind f ts with
    | some b => rfl
    | none =>
      cases htf : tokenFlagSpec t with
      | none => simp [optMapStep_of_spec_none htf]
      | some gb =>
        cases gb with
        | mk g b =>
          rw [optMapStep_of_spec_some htf m, dictGet_dictInsert]
          by_cases hgf : g = f <;> simp [hgf]

theorem lastBind_some_exists (f : Nat) (b : Bool) :
    ∀ ts : List String, lastBind f ts = some b →
      ∃ t ∈ ts, tokenFlagSpec t = some (f, b) := by
  intro ts
  induction ts with
  | nil => intro h; simp [lastBind] at h
  | cons t ts ih =>
    intro h
    simp only [lastBind] at h
    cases hlb : lastBind f ts with
    | some b' =>
      rw [hlb] at h
      rcases ih (hlb.trans h) with ⟨u, hu, hspec⟩
      exact ⟨u, List.mem_cons_of_mem t hu, hspec⟩
    | none =>
      rw [hlb] at h
      cases htf : tokenFlagSpec t with
      | none => rw [htf] at h; simp at h
      | some gb =>
        cases gb with
        | mk g c =>
          rw [htf] at h
          by_cases hgf : g = f
          · simp only [hgf, if_pos] at h
            have hcb : c = b := by simpa using h
            exact ⟨t, List.mem_cons_self t ts, by rw [htf, hgf, hcb]⟩
          · simp [hgf] at h

theorem lastBind_isSome_of_mem (f : Nat) (b : Bool) :
    ∀ (ts : List String) (t : String), t ∈ ts → tokenFlagSpec t = some (f, b) →
      (lastBind f ts).isSome = true := by
  intro ts
  induction ts with
  | nil => intro t h; simp at h
  | cons u ts ih =>
    intro t hmem hspec
    simp only [lastBind]
    cases hlb : lastBind f ts with
    | some b' => rfl
    | none =>
      rcases List.mem_cons.mp hmem with heq | htail
      · rw [← heq, hspec]
        simp
      · have := ih t htail hspec
        rw [hlb] at this
        simp at this

theorem foldl_optMapStep_filter :
    ∀ (ts : List String) (m : List (Nat × Bool)),
      (ts.filter (fun t => (tokenFlagSpec t).isSome)).foldl optMapStep m =
        ts.foldl optMapStep m := by
  intro ts
  induction ts with
  | nil => intro m; rfl
  | cons t ts ih =>
    intro m
    cases htf : tokenFlagSpec t with
    | none =>
      have hfil : (tokenFlagSpec t).isSome = false := by rw [htf]; rfl
      simp only [List.filter_cons, hfil, Bool.false_eq_true, if_false, List.foldl_cons]
      rw [ih m, optMapStep_of_spec_none htf]
    | some gb =>
      have hfil : (tokenFlagSpec t).isSome = true := by rw [htf]; rfl
      simp only [List.filter_cons, hfil, if_true, List.foldl_cons]
      exact ih (optMapStep m t)

/-- Modelled from the spec (§3 invariant and §4.3): the per-group assembly
loop over the group's blocks in document order, carrying the one-slot
"pending code" state.  A `testcode`/`doctest` block flushes any pending
example and starts a new pending one; a `testoutput` block attaches to the
pending example when one exists and is an orphaned-output hard error naming
the group and line otherwise; `testsetup`/`testcleanup` blocks are emitted
immediately as their own Examples; at end of input the pending slot is
flushed. -/

theorem assembleAux_some_ok (g : String) :
    ∀ (bs : List SBlock) (p : SExample), ∃ es, assembleAux g (some p) bs = Except.ok es := by
  intro bs
  induction bs with
  | nil => intro p; exact ⟨flushPending (some p), rfl⟩
  | cons b bs ih =>
    intro p
    cases hk : b.kind with
    | testcode =>
      rcases ih ⟨b, []⟩ with ⟨es, hes⟩
      exact ⟨flushPending (some p) ++ es, by simp [assembleAux, hk, hes]⟩
    | doctest =>
      rcases ih ⟨b, []⟩ with ⟨es, hes⟩
      exact ⟨flushPending (some p) ++ es, by simp [assembleAux, hk, hes]⟩
    | testoutput =>
      rcases ih ⟨p.codeBlock, p.outputs ++ [b]⟩ with ⟨es, hes⟩
      exact ⟨es, by simp [assembleAux, hk, hes]⟩
    | testsetup =>
      rcases ih p with ⟨es, hes⟩
      exact ⟨⟨b, []⟩ :: es, by simp [assembleAux, hk, hes]⟩
    | testcleanup =>
      rcases ih p with ⟨es, hes⟩
      exact ⟨⟨b, []⟩ :: es, by simp [assembleAux, hk, hes]⟩

theorem assembleAux_none_spec (g : String) :
    ∀ bs : List SBlock,
      ((∃ es, assembleAux g none bs = Except.ok es) ↔ firstOrphan bs = none) ∧
      (∀ b, firstOrphan bs = some b → assembleAux g none bs = Except.error ⟨g, b.line⟩) := by
  intro bs
  induction bs with
  | nil =>
    constructor
    · exact ⟨fun _ => rfl, fun _ => ⟨[], rfl⟩⟩
    · intro b hb; simp [firstOrphan] at hb
  | cons b bs ih =>
    cases hk : b.kind with
    | testcode =>
      rcases assembleAux_some_ok g bs ⟨b, []⟩ with ⟨es, hes⟩
      constructor
      · simp [assembleAux, hk, hes, firstOrphan]
      · intro b' hb'; simp [firstOrphan, hk] at hb'
    | doctest =>
      rcases assembleAux_some_ok g bs ⟨b, []⟩ with ⟨es, hes⟩
      constructor
      · simp [assembleAux, hk, hes, firstOrphan]
      · intro b' hb'; simp [firstOrphan, hk] at hb'
    | testoutput =>
      constructor
      · constructor
        · intro hex
          rcases hex with ⟨es, hes⟩
          simp [assembleAux, hk] at hes
        · intro hfo
          simp [firstOrphan, hk] at hfo
      · intro b' hb'
        simp only [firstOrphan, hk] at hb'
        rw [Option.some.injEq] at hb'
        simp [assembleAux, hk, ← hb']
    | testsetup =>
      constructor
      · constructor
        · intro hex
          rcases hex with ⟨es, hes⟩
          simp only [firstOrphan, hk]
          rcases hcall : assembleAux g none bs with e | es'
          · simp [assembleAux, hk, hcall] at hes
          · exact (ih.1).mp ⟨es', hcall⟩
        · intro hfo
          simp only [firstOrphan, hk] at hfo
          rcases (ih.1).mpr hfo with ⟨es, hes⟩
          exact ⟨⟨b, []⟩ :: es, by simp [assembleAux, hk, hes]⟩
      · intro b' hb'
        simp only [firstOrphan, hk] at hb'
        have := ih.2 b' hb'
        simp [assembleAux, hk, this]
    | testcleanup =>
      constructor
      · constructor
        · intro hex
          rcases hex with ⟨es, hes⟩
          simp only [firstOrphan, hk]
          rcases hcall : assembleAux g none bs with e | es'
          · simp [assembleAux, hk, hcall] at hes
          · exact (ih.1).mp ⟨es', hcall⟩
        · intro hfo
          simp only [firstOrphan, hk] at hfo
          rcases (ih.1).mpr hfo with ⟨es, hes⟩
          exact ⟨⟨b, []⟩ :: es, by simp [assembleAux, hk, hes]⟩
      · intro b' hb'
        simp only [firstOrphan, hk] at hb'
        have := ih.2 b' hb'
        simp [assembleAux, hk, this]

theorem malformedWarning_of_spec_some {tok : String} {fb : Nat × Bool}
    (h : tokenFlagSpec tok = some fb) (ln : Nat) : malformedWarning ln tok = none := by
  cases tok with
  | mk data =>
    cases data with
    | nil => simp [tokenFlagSpec] at h
    | cons sign rest =>
      simp only [tokenFlagSpec] at h
      simp only [malformedWarning]
      by_cases hs : sign = '+' ∨ sign = '-'
      · rw [if_pos hs] at h
        have hns : ¬ (sign ≠ '+' ∧ sign ≠ '-') := fun hc => (hs.elim hc.1 hc.2)
        cases hreg : optionflagsByName (String.mk rest)
        · rw [hreg] at h; simp at h
        · simp [hns, hreg]
      · rw [if_neg hs] at h
        simp at h

example : (parseOptionStrings "+NORMALIZE_WHITESPACE, +ELLIPSIS" 0).1 =
    [(4, true), (8, true)] := by decide

example : parseOptionStrings "+ELLIPSIS, -ELLIPSIS" 0 = ([(8, false)], []) := by decide

example : parseOptionStrings "ELLIPSIS +BOGUS +SKIP" 7 =
    ([(16, true)], [Warning.missingSign "ELLIPSIS" 7, Warning.invalidOption "BOGUS" 7]) := by
  decide

theorem dictGet_parseOptionStrings (s : String) (ln : Nat) (f : Nat) :
    dictGet (parseOptionStrings s ln).1 f =
      match lastBind f (pyTokens s) with
      | some b => some b
      | none => none := by
  have h1 := foldl_parseOptionToken ln (pyTokens s) [] []
  have h2 : (parseOptionStrings s ln).1 = (pyTokens s).foldl optMapStep [] := by
    simp only [parseOptionStrings, h1]
  rw [h2, dictGet_foldl_optMapStep]
  cases lastBind f (pyTokens s) <;> rfl

theorem parseOptionStrings_warnings (s : String) (ln : Nat) :
    (parseOptionStrings s ln).2 = (pyTokens s).filterMap (malformedWarning ln) := by
  have h1 := foldl_parseOptionToken ln (pyTokens s) [] []
  simp only [parseOptionStrings, h1, List.nil_append]

theorem run_options_of_options_string {vc : String → VersionCheck}
    {inp : DirectiveInput} {s : String}
    (hname : inp.name = "doctest" ∨ inp.name = "testoutput")
    (hopt : optGet inp.options "options" = some s)
    (hnopv : optHas inp.options "pyversion" = false) :
    (run vc inp).1.options = (parseOptionStrings s inp.lineno).1 := by
  rw [run_options]
  have hng : ¬ (inp.name = "doctest" ∧ optHas inp.options "pyversion" = true) := by
    intro hc
    rw [hnopv] at hc
    exact Bool.false_ne_true hc.2
  rw [applyPyversion, if_neg hng]
  have hhas := optGet_some_optHas hopt
  rw [parseDirectiveOptions, if_pos ⟨hname, hhas⟩, hopt]
  rfl

/-- C1: for a `doctest` or `testoutput` directive carrying an `:options:`
string (and no `pyversion` option, which would separately force the SKIP
flag, see C6), the node's options mapping is the one computed by splitting
the string on commas and whitespace and folding the well-formed tokens:
every entry of the mapping comes from a well-formed token (`+`/`-` sign plus
a registered flag name) with the value `true` exactly when that token's sign
is `+`, every well-formed token's flag is present in the mapping, and the
example string `"+NORMALIZE_WHITESPACE, +ELLIPSIS"` yields exactly the two
flags NORMALIZE_WHITESPACE (4) and ELLIPSIS (8) bound to `true`. -/

theorem c1_options_mapping (vc : String → VersionCheck) (inp : DirectiveInput) (s : String)
    (hname : inp.name = "doctest" ∨ inp.name = "testoutput")
    (hopt : optGet inp.options "options" = some s)
    (hnopv : optHas inp.options "pyversion" = false) :
    (run vc inp).1.options = (parseOptionStrings s inp.lineno).1 ∧
    (∀ f b, dictGet (run vc inp).1.options f = some b →
      ∃ t ∈ pyTokens s, tokenFlagSpec t = some (f, b)) ∧
    (∀ t ∈ pyTokens s, ∀ f b, tokenFlagSpec t = some (f, b) →
      (dictGet (run vc inp).1.options f).isSome = true) ∧
    parseOptionStrings "+NORMALIZE_WHITESPACE, +ELLIPSIS" 0 = ([(4, true), (8, true)], []) := by
  have hmain := @run_options_of_options_string vc inp s hname hopt hnopv
  refine ⟨hmain, ?_, ?_, by decide⟩
  · intro f b hfb
    rw [hmain, dictGet_parseOptionStrings] at hfb
    cases hlb : lastBind f (pyTokens s) with
    | some b' =>
      rw [hlb] at hfb
      have hb : b' = b := by simpa using hfb
      exact lastBind_some_exists f b (pyTokens s) (by rw [hlb, hb])
    | none =>
      rw [hlb] at hfb
      simp at hfb
  · intro t ht f b hspec
    rw [hmain, dictGet_parseOptionStrings]
    have hsome := lastBind_isSome_of_mem f b (pyTokens s) t ht hspec
    cases hlb : lastBind f (pyTokens s) with
    | some b' => simp
    | none =>
      rw [hlb] at hsome
      simp at hsome

/-- Witness for C1 at the concrete input `c1Inp`. -/
theorem c1_options_mapping_witness :
    (run vcAny c1Inp).1.options = [(4, true), (8, true)] := by
  have h := c1_options_mapping vcAny c1Inp "+NORMALIZE_WHITESPACE, +ELLIPSIS"
    (Or.inr rfl) (by decide) (by decide)
  rw [h.1]
  decide

/-- C2: the token loop of the option parser is total (it is a Lean function,
so it never raises), drops exactly the malformed tokens — the resulting
mapping equals the one folded from the well-formed tokens alone, so the
remaining tokens are processed unaffected — and emits exactly one warning
per malformed token, carrying the offending token (missing-sign case) or its
flag-name part (unrecognized-flag case).  NOTE: in `src/docutils_doctest.py`
the warning call interpolates the message through `__`, a name that is never
defined or imported in the module, so executing the warning path in Python
raises `NameError` instead; this theorem states the behavior with `__`
modelled as the identity on the message data, which is the documented and
intended behavior (see the file header). -/
theorem c2_malformed_option_tokens (s : String) (ln : Nat) :
    (parseOptionStrings s ln).1 =
      ((pyTokens s).filter (fun t => (tokenFlagSpec t).isSome)).foldl optMapStep [] ∧
    (parseOptionStrings s ln).2 = (pyTokens s).filterMap (malformedWarning ln) := by
  constructor
  · have h1 := foldl_parseOptionToken ln (pyTokens s) [] []
    have h2 : (parseOptionStrings s ln).1 = (pyTokens s).foldl optMapStep [] := by
      simp only [parseOptionStrings, h1]
    rw [h2, foldl_optMapStep_filter]
  · exact parseOptionStrings_warnings s ln

/-- C10: duplicate well-formed tokens naming the same flag are resolved by
Python-dict assignment, so the mapping binds each flag to the state given by
the LAST well-formed token naming it; duplicates produce no warning (an
all-well-formed token list yields an empty warning list); concretely
`"+ELLIPSIS, -ELLIPSIS"` yields ELLIPSIS bound to `false` with no
warnings. -/
theorem c10_duplicate_flags (s : String) (ln : Nat) :
    (∀ f, dictGet (parseOptionStrings s ln).1 f =
      match lastBind f (pyTokens s) with
      | some b => some b
      | none => none) ∧
    ((∀ t ∈ pyTokens s, (tokenFlagSpec t).isSome = true) →
      (parseOptionStrings s ln).2 = []) ∧
    parseOptionStrings "+ELLIPSIS, -ELLIPSIS" 0 = ([(8, false)], []) := by
  refine ⟨fun f => dictGet_parseOptionStrings s ln f, ?_, by decide⟩
  intro hall
  rw [parseOptionStrings_warnings]
  rw [List.filterMap_eq_nil_iff]
  intro t ht
  rcases Option.isSome_iff_exists.mp (hall t ht) with ⟨fb, hfb⟩
  exact malformedWarning_of_spec_some hfb ln

/-- Witness for C10 at the concrete options string `"+ELLIPSIS, -ELLIPSIS"`. -/
theorem c10_duplicate_flags_witness :
    dictGet (parseOptionStrings "+ELLIPSIS, -ELLIPSIS" 0).1 8 =
      (match lastBind 8 (pyTokens "+ELLIPSIS, -ELLIPSIS") with
       | some b => some b
       | none => none) ∧
    (parseOptionStrings "+ELLIPSIS, -ELLIPSIS" 0).2 = [] := by
  have h := c10_duplicate_flags "+ELLIPSIS, -ELLIPSIS" 0
  exact ⟨h.1 8, h.2.1 (by decide)⟩

/-- C3: within a group, code and output blocks are matched through a single
pending-code slot (spec-modelled assembler, §3/§4.3/§7): assembly of a
group's blocks succeeds exactly when no `testoutput` block precedes every
`testcode`/`doctest` block of the group; when an orphaned output exists, the
result is a hard parsing error naming the offending group and the orphan's
line; and a `testoutput` block arriving while a pending example exists
attaches to that pending example. -/
theorem c3_pending_slot_matching (g : String) (bs : List SBlock) :
    ((∃ es, assembleGroup g bs = Except.ok es) ↔
      firstOrphan (bs.filter (fun b => b.groups.contains g)) = none) ∧
    (∀ b, firstOrphan (bs.filter (fun b => b.groups.contains g)) = some b →
      assembleGroup g bs = Except.error ⟨g, b.line⟩) ∧
    (∀ (p : SExample) (b : SBlock) (bs2 : List SBlock),
      b.kind = BlockKind.testoutput →
      assembleAux g (some p) (b :: bs2) =
        assembleAux g (some ⟨p.codeBlock, p.outputs ++ [b]⟩) bs2) := by
  have h := assembleAux_none_spec g (bs.filter (fun b => b.groups.contains g))
  refine ⟨h.1, h.2, ?_⟩
  intro p b bs2 hk
  simp [assembleAux, hk]

/-- Witness for C3: a group consisting of a single `testoutput` block is an
orphaned-output error naming the group and the block's line. -/
theorem c3_pending_slot_matching_witness :
    assembleGroup "default" [c3Blk] = Except.error { group := "default", line := 5 } := by
  have h := c3_pending_slot_matching "default" [c3Blk]
  exact h.2.1 c3Blk (by decide)

/-- Counterexample to C4 as stated: the claim quantifies over every directive
body (code or want text), but `run` performs the blank-line substitution only
for `doctest` directives (line 51 of the source guards the whole block with
`self.name == "doctest"`).  For a `testoutput` directive whose body is the
marker itself, the emitted working text still contains the marker and nothing
is preserved under the `test` field, while the claim predicts an empty
working text and a preserved pre-substitution text. -/
theorem c4_counterexample :
    (run vcAny c4Inp).1.code = "<BLANKLINE>" ∧ (run vcAny c4Inp).1.test = none := by
  decide

/-- C4 amended: only for `doctest` directives — when the body contains the
`<BLANKLINE>` marker, the pre-substitution body is preserved under the node's
`test` field and the emitted working text is the body with every line-leading
marker removed by `blankline_re` (yielding a truly empty line wherever the
marker stood alone on its line), possibly further stripped of inline
flag-comment annotations by the step of lines 56-62. -/
theorem c4_blankline_doctest (vc : String → VersionCheck) (inp : DirectiveInput)
    (hname : inp.name = "doctest")
    (hblank : hasBlanklineTok (joinContent inp.content) = true) :
    (run vc inp).1.test = some (joinContent inp.content) ∧
    (run vc inp).1.code =
      (if pyFlagSearch (pyBlanklineSub (joinContent inp.content)) &&
          !optHas inp.options "no-trim-doctest-flags"
       then pyFlagSub (pyBlanklineSub (joinContent inp.content))
       else pyBlanklineSub (joinContent inp.content)) := by
  rw [run_test, run_code, if_pos hname]
  simp only [doctestTransform, hblank, if_true]
  cases hcond : (pyFlagSearch (pyBlanklineSub (joinContent inp.content)) &&
      !optHas inp.options "no-trim-doctest-flags") <;>
    simp [hcond]

/-- Witness for C4 (amended) at the concrete input `c4wInp`. -/
theorem c4_blankline_doctest_witness :
    (run vcAny c4wInp).1.test = some ">>> print()\n<BLANKLINE>" ∧
    (run vcAny c4wInp).1.code = ">>> print()\n" := by
  have h := c4_blankline_doctest vcAny c4wInp rfl (by decide)
  refine ⟨?_, ?_⟩
  · rw [h.1]; decide
  · rw [h.2]; decide

/-- Counterexample to C5 as stated: the claim quantifies over every directive
body, but `run` strips inline flag-comment annotations only for `doctest`
directives (line 51 of the source).  A `testcode` body carrying a trailing
`# doctest: +ELLIPSIS` annotation is emitted unchanged, with nothing
preserved under the `test` field, while the claim predicts the annotation
stripped from the working text and the pre-strip text preserved. -/
theorem c5_counterexample :
    (run vcAny c5Inp).1.code = "print(1)  # doctest: +ELLIPSIS" ∧
    (run vcAny c5Inp).1.test = none := by
  decide

/-- C5 amended: only for `doctest` directives — writing `c1` for the body
after the blank-line step of lines 52-55, if `doctestopt_re` matches `c1`
then: with `no-trim-doctest-flags` absent the annotation is stripped from the
working text and the pre-strip body is preserved under the `test` field, and
with `no-trim-doctest-flags` present the annotation is left in place. -/
theorem c5_trim_doctest_flags (vc : String → VersionCheck) (inp : DirectiveInput)
    (hname : inp.name = "doctest")
    (hflag : pyFlagSearch
      (if hasBlanklineTok (joinContent inp.content)
       then pyBlanklineSub (joinContent inp.content)
       else joinContent inp.content) = true) :
    (optHas inp.options "no-trim-doctest-flags" = false →
      (run vc inp).1.code = pyFlagSub
        (if hasBlanklineTok (joinContent inp.content)
         then pyBlanklineSub (joinContent inp.content)
         else joinContent inp.content) ∧
      (run vc inp).1.test = some (joinContent inp.content)) ∧
    (optHas inp.options "no-trim-doctest-flags" = true →
      (run vc inp).1.code =
        (if hasBlanklineTok (joinContent inp.content)
         then pyBlanklineSub (joinContent inp.content)
         else joinContent inp.content)) := by
  rw [run_test, run_code, if_pos hname]
  cases hbl : hasBlanklineTok (joinContent inp.content) with
  | false =>
    rw [hbl] at hflag
    simp only [Bool.false_eq_true, if_false] at hflag ⊢
    constructor
    · intro hnt
      simp [doctestTransform, hbl, hflag, hnt]
    · intro hnt
      simp [doctestTransform, hbl, hflag, hnt]
  | true =>
    rw [hbl] at hflag
    simp only [if_true] at hflag ⊢
    constructor
    · intro hnt
      simp [doctestTransform, hbl, hflag, hnt]
    · intro hnt
      simp [doctestTransform, hbl, hflag, hnt]

/-- Witness for C5 (amended) at the concrete input `c5wInp`. -/
theorem c5_trim_doctest_flags_witness :
    (run vcAny c5wInp).1.code = ">>> 1  \n1" ∧
    (run vcAny c5wInp).1.test = some ">>> 1  # doctest: +SKIP\n1" := by
  have h := c5_trim_doctest_flags vcAny c5wInp rfl (by decide)
  have h2 := h.1 (by decide)
  refine ⟨?_, ?_⟩
  · rw [h2.1]; decide
  · rw [h2.2]; decide

/-- Counterexample to C6 as stated: the claim covers every directive whose
option schema recognizes `pyversion` (testcode, testoutput and doctest all
list it in their `option_spec`), but line 111 of the source guards the whole
version-gating block with `self.name == "doctest"`.  A `testoutput` directive
with a non-matching version specifier keeps an empty options mapping: the
SKIP flag (16) is never forced. -/
theorem c6_counterexample :
    (run vcNone c6Inp).1.options = [] ∧
    dictGet (run vcNone c6Inp).1.options 16 = none := by
  decide

/-- C6 amended: only for `doctest` directives — when a `pyversion` option is
present and the (externally supplied) version check reports a non-match, the
node's options mapping gains the SKIP comparison flag (16) forced to `true`;
`testcode` and `testoutput` directives accept the option but `run` ignores
it. -/
theorem c6_pyversion_skip (vc : String → VersionCheck) (inp : DirectiveInput)
    (spec1 : String) (hname : inp.name = "doctest")
    (hpv : optGet inp.options "pyversion" = some spec1)
    (hvc : vc spec1 = VersionCheck.noMatch) :
    dictGet (run vc inp).1.options 16 = some true := by
  rw [run_options]
  have hhas := optGet_some_optHas hpv
  simp only [applyPyversion, if_pos (And.intro hname hhas), hpv, Option.getD_some, hvc]
  have hskip : (optionflagsByName "SKIP").getD 0 = 16 := by decide
  rw [hskip, dictGet_dictInsert, if_pos rfl]

/-- Witness for C6 (amended) at the concrete input `c6wInp`. -/
theorem c6_pyversion_skip_witness :
    dictGet (run vcNone c6wInp).1.options 16 = some true :=
  c6_pyversion_skip vcNone c6wInp "3.99" rfl (by decide) rfl

/-- Counterexample to C7 as stated: with both flags given and
`no-trim-doctest-flags` declared last, the claim predicts a warning and the
later-declared value winning (`trim_flags = false`), but lines 124-127 of the
source check `trim-doctest-flags` first unconditionally and emit no
diagnostic: the node gets `trim_flags = some true` and the warning list is
empty. -/
theorem c7_counterexample :
    (run vcAny c7Inp).1.trim_flags = some true ∧ (run vcAny c7Inp).2 = [] := by
  decide

/-- C7 amended: when both `trim-doctest-flags` and `no-trim-doctest-flags`
are given on one block, no warning is emitted and `trim-doctest-flags` wins
unconditionally, regardless of declaration order: `trim_flags` is set to
`true` (here stated for directives with no other warning sources, i.e. no
`options` and no `pyversion` option, so that the whole warning list is
empty). -/
theorem c7_trim_both (vc : String → VersionCheck) (inp : DirectiveInput)
    (ht : optHas inp.options "trim-doctest-flags" = true)
    (hno : optHas inp.options "options" = false)
    (hnp : optHas inp.options "pyversion" = false) :
    (run vc inp).1.trim_flags = some true ∧ (run vc inp).2 = [] := by
  constructor
  · rw [run_trim_flags, if_pos ht]
  · rw [run_warnings]
    have h1 : ¬ ((inp.name = "doctest" ∨ inp.name = "testoutput") ∧
        optHas inp.options "options" = true) := by
      intro hc
      rw [hno] at hc
      exact Bool.false_ne_true hc.2
    have h2 : ¬ (inp.name = "doctest" ∧ optHas inp.options "pyversion" = true) := by
      intro hc
      rw [hnp] at hc
      exact Bool.false_ne_true hc.2
    simp only [parseDirectiveOptions, applyPyversion, if_neg h1, if_neg h2]

/-- Witness for C7 (amended) at the concrete input `c7Inp` (which declares
both flags, `no-trim-doctest-flags` last). -/
theorem c7_trim_both_witness :
    (run vcAny c7Inp).1.trim_flags = some true ∧ (run vcAny c7Inp).2 = [] :=
  c7_trim_both vcAny c7Inp (by decide) (by decide) (by decide)

/-- C8: with no argument the node's groups list is exactly `["default"]`;
with an argument it is the argument split on commas with each name stripped
of surrounding whitespace, in order (lines 66-69 of the source); concretely
the argument `"g one ,g two"` yields `["g one", "g two"]`, preserving order
and interior spaces. -/
theorem c8_groups (vc : String → VersionCheck) (inp : DirectiveInput) :
    (inp.arguments = [] → (run vc inp).1.groups = ["default"]) ∧
    (∀ a rest, inp.arguments = a :: rest →
      (run vc inp).1.groups =
        (splitCommaAux [] a.data).map (fun l => String.mk (pyStrip l))) ∧
    (run vcAny c8Inp).1.groups = ["g one", "g two"] := by
  refine ⟨?_, ?_, by decide⟩
  · intro h
    rw [run_groups, h]
    rfl
  · intro a rest h
    rw [run_groups, h]
    rfl

/-- Witness for C8 at the concrete input `c8Inp`. -/
theorem c8_groups_witness :
    (run vcAny c8Inp).1.groups =
      (splitCommaAux [] "g one ,g two".data).map (fun l => String.mk (pyStrip l)) :=
  (c8_groups vcAny c8Inp).2.1 "g one ,g two" [] rfl

/-- Counterexample to C9 as stated: the normalization is not idempotent.  On
`"<BLANKLINE> <BLANKLINE>"` the first pass removes only the first marker
(the second occupies no line start in the original scan), leaving
`" <BLANKLINE>"`, and a second pass removes that as well, so re-applying the
normalization to already-normalized output is not a no-operation. -/
theorem c9_counterexample :
    ¬ (normText (normText "<BLANKLINE> <BLANKLINE>") =
        normText "<BLANKLINE> <BLANKLINE>") := by
  decide

/-- C9 amended: the normalization is idempotent exactly on outputs it has
fully cleaned — whenever the once-normalized text has no remaining
line-leading `<BLANKLINE>` match and no remaining flag-comment match, a
second application changes nothing; texts whose normalized form retains such
a match (e.g. `"<BLANKLINE> <BLANKLINE>"`) shrink further under a second
pass. -/
theorem c9_idempotent_when_clean (s : String)
    (h1 : pyBlanklineSearch (normText s) = false)
    (h2 : pyFlagSearch (normText s) = false) :
    normText (normText s) = normText s := by
  show pyFlagSub (pyBlanklineSub (normText s)) = normText s
  rw [pyBlanklineSub_of_no_search h1, pyFlagSub_of_no_search h2]

/-- Witness for C9 (amended) at a concrete doctest-like text containing both
a flag comment and a line-leading marker. -/
theorem c9_idempotent_when_clean_witness :
    normText (normText ">>> 1  # doctest: +SKIP\n<BLANKLINE>") =
      normText ">>> 1  # doctest: +SKIP\n<BLANKLINE>" :=
  c9_idempotent_when_clean ">>> 1  # doctest: +SKIP\n<BLANKLINE>"
    (by decide) (by decide)
